import Mathlib

/-!
Shallow embedding of the Fieldpulse offline-first sync engine.

The definitions below are translated from the TypeScript source:
  * `src/db/repositories/syncQueue.ts` — the durable mutation queue
    (`addToQueue`, `getNextQueueItems`, `markItemSuccess`, `markItemFailed`,
    `removeFromQueue`, `getFailedItems`, `retryFailedItem`);
  * `src/db/repositories/jobs.ts` — the local entity store for jobs
    (`saveJob`, `saveJobs`, `deleteJob`);
  * `src/store/syncStore.ts` — the reconciliation engine
    (`startSync`, `pullChanges`, `pushChanges`, `resolveConflict`,
    `processQueueItem`, `handleConflictServerWins`, `retryWithBackoff`).

The SQLite tables are modelled as Lean lists of rows; the SQL statements the
repositories execute are modelled by the corresponding list transformations.
The `payload` column (JSON text in the database) is modelled by a small
`Payload` structure carrying the fields the sync engine itself inspects
(`version`, `completeJob`); JSON.parse/JSON.stringify round-tripping lets a
row store the structured value directly.  Network effects are modelled by
explicit environments giving the outcome of each remote call attempt.
-/

namespace Fieldpulse

/-- Entity kinds of queue items: `'job' | 'checklist_response' | 'photo' | 'signature'`. -/
inductive SyncEntityType
  | job
  | checklist_response
  | photo
  | signature
deriving DecidableEq, Repr

/-- Queue actions: `'create' | 'update' | 'delete'`. -/
inductive SyncAct
  | create
  | update
  | delete
deriving DecidableEq, Repr

/-- The payload fields the engine inspects.  `version` models the JS field
`payload.version : number | undefined`; `completeJob` models
`payload.completeJob`; `body` stands for the remaining opaque JSON content. -/
structure Payload where
  version : Option Nat
  completeJob : Bool
  body : String
deriving DecidableEq, Repr

/-- A row of the `sync_queue` table, in its repository form `SyncQueueItem`. -/
structure SyncQueueItem where
  id : Nat
  entityType : SyncEntityType
  entityId : String
  action : SyncAct
  payload : Payload
  filePath : Option String
  retryCount : Nat
  lastError : Option String
  priority : Int
  createdAt : Nat
deriving DecidableEq, Repr

/-- The `sync_queue` table: its rows, plus the AUTOINCREMENT counter that
assigns the next primary key. -/
structure QueueState where
  items : List SyncQueueItem
  nextId : Nat
deriving DecidableEq, Repr

/-- The `WHERE entity_type = ? AND entity_id = ?` predicate. -/
def entityMatches (et : SyncEntityType) (eid : String) (it : SyncQueueItem) : Bool :=
  it.entityType == et && it.entityId == eid

/-- `addToQueue` (syncQueue.ts): first `DELETE FROM sync_queue WHERE
entity_type = ? AND entity_id = ?`, then `INSERT` a fresh row.  The schema
supplies the defaults `retry_count = 0`, `last_error = NULL` and
`created_at = strftime now` (passed in as `now`); the id is the
AUTOINCREMENT value.  Returns the new state and the inserted id. -/
def addToQueue (q : QueueState) (now : Nat) (et : SyncEntityType) (eid : String)
    (action : SyncAct) (payload : Payload) (filePath : Option String)
    (priority : Int) : QueueState × Nat :=
  let remaining := q.items.filter (fun it => !(entityMatches et eid it))
  let item : SyncQueueItem :=
    ⟨q.nextId, et, eid, action, payload, filePath, 0, none, priority, now⟩
  (⟨remaining ++ [item], q.nextId + 1⟩, q.nextId)

/-- The `ORDER BY priority DESC, created_at ASC` comparison, as a boolean
total preorder. -/
def queueLE (a b : SyncQueueItem) : Bool :=
  decide (b.priority < a.priority) ||
    (a.priority == b.priority && decide (a.createdAt ≤ b.createdAt))

/-- `getNextQueueItems` (syncQueue.ts): `SELECT * FROM sync_queue WHERE
retry_count < 3 ORDER BY priority DESC, created_at ASC LIMIT ?`.  A bare
SELECT, so the state component is returned unchanged. -/
def getNextQueueItems (q : QueueState) (limit : Nat) :
    QueueState × List SyncQueueItem :=
  (q, ((q.items.filter (fun it => decide (it.retryCount < 3))).mergeSort queueLE).take limit)

/-- `getQueueCount` (syncQueue.ts): `SELECT COUNT(*) FROM sync_queue`. -/
def getQueueCount (q : QueueState) : Nat :=
  q.items.length

/-- `markItemSuccess` (syncQueue.ts): `DELETE FROM sync_queue WHERE id = ?`. -/
def markItemSuccess (q : QueueState) (id : Nat) : QueueState :=
  ⟨q.items.filter (fun it => it.id != id), q.nextId⟩

/-- `markItemFailed` (syncQueue.ts): `UPDATE sync_queue SET retry_count =
retry_count + 1, last_error = ? WHERE id = ?`. -/
def markItemFailed (q : QueueState) (id : Nat) (err : String) : QueueState :=
  ⟨q.items.map (fun it =>
      if it.id == id then
        { it with retryCount := it.retryCount + 1, lastError := some err }
      else it),
    q.nextId⟩

/-- `removeFromQueue` (syncQueue.ts): `DELETE FROM sync_queue WHERE id = ?`. -/
def removeFromQueue (q : QueueState) (id : Nat) : QueueState :=
  ⟨q.items.filter (fun it => it.id != id), q.nextId⟩

/-- `getFailedItems` (syncQueue.ts): `SELECT * FROM sync_queue WHERE
retry_count >= 3 ORDER BY created_at ASC`. -/
def getFailedItems (q : QueueState) : List SyncQueueItem :=
  (q.items.filter (fun it => decide (3 ≤ it.retryCount))).mergeSort
    (fun a b => decide (a.createdAt ≤ b.createdAt))

/-- `retryFailedItem` (syncQueue.ts): `UPDATE sync_queue SET retry_count = 0,
last_error = NULL WHERE id = ?`. -/
def retryFailedItem (q : QueueState) (id : Nat) : QueueState :=
  ⟨q.items.map (fun it =>
      if it.id == id then { it with retryCount := 0, lastError := none } else it),
    q.nextId⟩

/-- `getQueueItem` (syncQueue.ts): `SELECT * FROM sync_queue WHERE id = ?`. -/
def lookupQueue (q : QueueState) (id : Nat) : Option SyncQueueItem :=
  q.items.find? (fun it => it.id == id)

/-- The varying arguments of one `addToQueue` call for a fixed entity. -/
structure EnqueueCall where
  action : SyncAct
  payload : Payload
  filePath : Option String
  priority : Int
deriving DecidableEq, Repr

/-- A sequence of `addToQueue` calls for the same `(entityType, entityId)`. -/
def enqueueAll (q : QueueState) (now : Nat) (et : SyncEntityType) (eid : String)
    (calls : List EnqueueCall) : QueueState :=
  calls.foldl
    (fun acc c => (addToQueue acc now et eid c.action c.payload c.filePath c.priority).1) q

theorem filter_addToQueue (q : QueueState) (now : Nat) (et : SyncEntityType)
    (eid : String) (a : SyncAct) (p : Payload) (f : Option String) (pr : Int) :
    ((addToQueue q now et eid a p f pr).1).items.filter (entityMatches et eid) =
      [⟨q.nextId, et, eid, a, p, f, 0, none, pr, now⟩] := by
  simp only [addToQueue, List.filter_append]
  rw [List.filter_filter]
  have h1 : q.items.filter (fun a => entityMatches et eid a && !entityMatches et eid a) = [] := by
    simp [Bool.and_not_self]
  rw [h1]
  simp [entityMatches]

/-- C1: for every (entityType, entityId) pair, any nonempty sequence of
enqueue calls for that entity leaves exactly one queue item for it, carrying
the payload (and action, file path, priority) of the last call, with
retryCount = 0; in particular a single enqueue removes any items already
present for the entity before inserting the new row. -/
theorem addToQueue_dedup (now : Nat) (et : SyncEntityType) (eid : String)
    (calls : List EnqueueCall) (h : calls ≠ []) (q : QueueState) :
    ∃ i, (enqueueAll q now et eid calls).items.filter (entityMatches et eid) =
      [⟨i, et, eid, (calls.getLast h).action, (calls.getLast h).payload,
        (calls.getLast h).filePath, 0, none, (calls.getLast h).priority, now⟩] := by
  induction calls generalizing q with
  | nil => exact absurd rfl h
  | cons c cs ih =>
    cases cs with
    | nil =>
      refine ⟨q.nextId, ?_⟩
      simpa [enqueueAll] using filter_addToQueue q now et eid c.action c.payload c.filePath c.priority
    | cons c2 cs2 =>
      have hne : c2 :: cs2 ≠ ([] : List EnqueueCall) := by simp
      obtain ⟨i, hi⟩ := ih hne (addToQueue q now et eid c.action c.payload c.filePath c.priority).1
      refine ⟨i, ?_⟩
      rw [List.getLast_cons hne]
      simpa [enqueueAll] using hi

/-- Witness for `addToQueue_dedup`: two enqueues for the same entity, on a
queue already holding an unrelated item, leave exactly the second payload. -/
theorem addToQueue_dedup_witness :
    ∃ i, (enqueueAll ⟨[], 0⟩ 7 SyncEntityType.job "job-1"
        [⟨SyncAct.update, ⟨some 1, false, "first"⟩, none, 0⟩,
         ⟨SyncAct.update, ⟨some 2, false, "second"⟩, none, 10⟩]).items.filter
        (entityMatches SyncEntityType.job "job-1") =
      [⟨i, SyncEntityType.job, "job-1", SyncAct.update, ⟨some 2, false, "second"⟩,
        none, 0, none, 10, 7⟩] := by
  have h : ([⟨SyncAct.update, ⟨some 1, false, "first"⟩, none, 0⟩,
      ⟨SyncAct.update, ⟨some 2, false, "second"⟩, none, 10⟩] : List EnqueueCall) ≠ [] := by
    simp
  simpa using addToQueue_dedup 7 SyncEntityType.job "job-1" _ h ⟨[], 0⟩

theorem queueLE_trans (a b c : SyncQueueItem) (hab : queueLE a b = true)
    (hbc : queueLE b c = true) : queueLE a c = true := by
  simp only [queueLE, Bool.or_eq_true, Bool.and_eq_true, decide_eq_true_eq,
    beq_iff_eq] at *
  rcases hab with h1 | ⟨h1, h1'⟩ <;> rcases hbc with h2 | ⟨h2, h2'⟩
  · exact Or.inl (lt_trans h2 h1)
  · exact Or.inl (h2 ▸ h1)
  · exact Or.inl (h1 ▸ h2)
  · exact Or.inr ⟨h1.trans h2, le_trans h1' h2'⟩

theorem queueLE_total (a b : SyncQueueItem) : (queueLE a b || queueLE b a) = true := by
  simp only [queueLE, Bool.or_eq_true, Bool.and_eq_true, decide_eq_true_eq, beq_iff_eq]
  rcases lt_trichotomy a.priority b.priority with h | h | h
  · exact Or.inr (Or.inl h)
  · rcases Nat.le_total a.createdAt b.createdAt with h' | h'
    · exact Or.inl (Or.inr ⟨h, h'⟩)
    · exact Or.inr (Or.inr ⟨h.symm, h'⟩)
  · exact Or.inl (Or.inl h)

/-- C7: `getNextQueueItems` is a bare SELECT — it leaves the queue unchanged,
returns at most `limit` rows, every returned row has retryCount < 3, and the
rows are ordered by priority descending with createdAt ascending among equal
priorities. -/
theorem getNextQueueItems_spec (q : QueueState) (limit : Nat) :
    (getNextQueueItems q limit).1 = q ∧
    (getNextQueueItems q limit).2.length ≤ limit ∧
    (∀ it ∈ (getNextQueueItems q limit).2, it.retryCount < 3) ∧
    (getNextQueueItems q limit).2.Pairwise (fun a b =>
      b.priority < a.priority ∨
        (a.priority = b.priority ∧ a.createdAt ≤ b.createdAt)) := by
  refine ⟨rfl, ?_, ?_, ?_⟩
  · exact List.length_take_le _ _
  · intro it hit
    have h1 : it ∈ (q.items.filter (fun it => decide (it.retryCount < 3))).mergeSort queueLE :=
      (List.take_sublist _ _).mem hit
    have h2 : it ∈ q.items.filter (fun it => decide (it.retryCount < 3)) :=
      (List.mergeSort_perm _ _).mem_iff.mp h1
    have h3 := (List.mem_filter.mp h2).2
    simpa using h3
  · have hs := List.sorted_mergeSort queueLE_trans queueLE_total
      (q.items.filter (fun it => decide (it.retryCount < 3)))
    have hp := hs.sublist (List.take_sublist limit _)
    refine hp.imp ?_
    intro a b hab
    simpa [queueLE, Bool.or_eq_true, Bool.and_eq_true, decide_eq_true_eq,
      beq_iff_eq] using hab

/-- Witness for `getNextQueueItems_spec`: the spec instantiated at a queue
holding items of priorities 0, 10 and 5. -/
theorem getNextQueueItems_spec_witness :
    (getNextQueueItems ⟨[⟨1, SyncEntityType.job, "a", SyncAct.update,
        ⟨none, false, ""⟩, none, 0, none, 0, 1⟩,
      ⟨2, SyncEntityType.job, "b", SyncAct.update,
        ⟨none, false, ""⟩, none, 0, none, 10, 2⟩,
      ⟨3, SyncEntityType.job, "c", SyncAct.update,
        ⟨none, false, ""⟩, none, 0, none, 5, 3⟩], 4⟩ 10).1 =
      ⟨[⟨1, SyncEntityType.job, "a", SyncAct.update,
          ⟨none, false, ""⟩, none, 0, none, 0, 1⟩,
        ⟨2, SyncEntityType.job, "b", SyncAct.update,
          ⟨none, false, ""⟩, none, 0, none, 10, 2⟩,
        ⟨3, SyncEntityType.job, "c", SyncAct.update,
          ⟨none, false, ""⟩, none, 0, none, 5, 3⟩], 4⟩ ∧
    (getNextQueueItems ⟨[⟨1, SyncEntityType.job, "a", SyncAct.update,
        ⟨none, false, ""⟩, none, 0, none, 0, 1⟩,
      ⟨2, SyncEntityType.job, "b", SyncAct.update,
        ⟨none, false, ""⟩, none, 0, none, 10, 2⟩,
      ⟨3, SyncEntityType.job, "c", SyncAct.update,
        ⟨none, false, ""⟩, none, 0, none, 5, 3⟩], 4⟩ 10).2.length ≤ 10 ∧
    (∀ it ∈ (getNextQueueItems ⟨[⟨1, SyncEntityType.job, "a", SyncAct.update,
        ⟨none, false, ""⟩, none, 0, none, 0, 1⟩,
      ⟨2, SyncEntityType.job, "b", SyncAct.update,
        ⟨none, false, ""⟩, none, 0, none, 10, 2⟩,
      ⟨3, SyncEntityType.job, "c", SyncAct.update,
        ⟨none, false, ""⟩, none, 0, none, 5, 3⟩], 4⟩ 10).2, it.retryCount < 3) ∧
    (getNextQueueItems ⟨[⟨1, SyncEntityType.job, "a", SyncAct.update,
        ⟨none, false, ""⟩, none, 0, none, 0, 1⟩,
      ⟨2, SyncEntityType.job, "b", SyncAct.update,
        ⟨none, false, ""⟩, none, 0, none, 10, 2⟩,
      ⟨3, SyncEntityType.job, "c", SyncAct.update,
        ⟨none, false, ""⟩, none, 0, none, 5, 3⟩], 4⟩ 10).2.Pairwise (fun a b =>
      b.priority < a.priority ∨
        (a.priority = b.priority ∧ a.createdAt ≤ b.createdAt)) :=
  getNextQueueItems_spec ⟨[⟨1, SyncEntityType.job, "a", SyncAct.update,
      ⟨none, false, ""⟩, none, 0, none, 0, 1⟩,
    ⟨2, SyncEntityType.job, "b", SyncAct.update,
      ⟨none, false, ""⟩, none, 0, none, 10, 2⟩,
    ⟨3, SyncEntityType.job, "c", SyncAct.update,
      ⟨none, false, ""⟩, none, 0, none, 5, 3⟩], 4⟩ 10

/-- A server-side job as the sync engine sees it: its id, its optimistic
concurrency `version`, and the rest of its serialized content. -/
structure Job where
  id : String
  version : Nat
  body : String
deriving DecidableEq, Repr

/-- A row of the `jobs` table (`LocalJob` in jobs.ts).  The `data` column
holds `JSON.stringify(job)`; since parse and stringify are mutually inverse
the row stores the structured `Job` directly. -/
structure LocalJobRow where
  id : String
  data : Job
  server_version : Option Nat
  local_version : Nat
  is_dirty : Bool
  last_synced_at : Option Nat
  created_at : Nat
deriving DecidableEq, Repr

/-- The UPDATE taken on the server-origin path of `saveJob`:
`UPDATE jobs SET data = ?, server_version = ?, last_synced_at = ?, is_dirty = 0
WHERE id = ?`. -/
def serverOverwrite (now : Nat) (job : Job) (r : LocalJobRow) : LocalJobRow :=
  { r with
    data := job
    server_version := some job.version
    last_synced_at := some now
    is_dirty := false }

/-- `saveJob` (jobs.ts): upsert of one job.  When a row exists and the write
is `fromServer`, it only happens when the row is not dirty or the incoming
version is strictly newer than `server_version ?? 0`; a local write bumps
`local_version` and sets the dirty flag; otherwise a fresh row is inserted
with the column values of the INSERT statement. -/
def saveJob (db : List LocalJobRow) (now : Nat) (job : Job) (fromServer : Bool) :
    List LocalJobRow :=
  match db.find? (fun r => r.id == job.id) with
  | some localJob =>
    if fromServer then
      if !localJob.is_dirty || decide (localJob.server_version.getD 0 < job.version) then
        db.map (fun r => if r.id == job.id then serverOverwrite now job r else r)
      else
        db
    else
      db.map (fun r =>
        if r.id == job.id then
          { r with data := job, local_version := r.local_version + 1, is_dirty := true }
        else r)
  | none =>
    db ++ [⟨job.id, job, if fromServer then some job.version else none, 1,
            !fromServer, if fromServer then some now else none, now⟩]

/-- `saveJobs` (jobs.ts): a transaction applying the `saveJob` upsert to each
job in order. -/
def saveJobs (db : List LocalJobRow) (now : Nat) (jobs : List Job)
    (fromServer : Bool) : List LocalJobRow :=
  jobs.foldl (fun d j => saveJob d now j fromServer) db

/-- `deleteJob` (jobs.ts): `DELETE FROM jobs WHERE id = ?`. -/
def deleteJob (db : List LocalJobRow) (jobId : String) : List LocalJobRow :=
  db.filter (fun r => r.id != jobId)

/-- C2: a pull-phase (`fromServer = true`) upsert of a job whose local row is
dirty leaves the whole table unchanged when the incoming version is at most
the stored `server_version`, and when it is strictly greater it overwrites the
row's data, sets `server_version` to the incoming version and clears the dirty
flag (also stamping `last_synced_at`); `saveJobs` applies the same rule. -/
theorem saveJob_dirty_merge (db : List LocalJobRow) (now : Nat) (job : Job)
    (r : LocalJobRow) (hfind : db.find? (fun x => x.id == job.id) = some r)
    (hdirty : r.is_dirty = true) (v : Nat) (hv : r.server_version = some v) :
    (job.version ≤ v → saveJob db now job true = db) ∧
    (v < job.version → saveJob db now job true =
      db.map (fun x => if x.id == job.id then serverOverwrite now job x else x)) ∧
    saveJobs db now [job] true = saveJob db now job true := by
  refine ⟨?_, ?_, rfl⟩
  · intro hle
    simp [saveJob, hfind, hdirty, hv, Nat.not_lt.mpr hle]
  · intro hlt
    simp [saveJob, hfind, hdirty, hv, hlt]

/-- Witness for `saveJob_dirty_merge`: a dirty row with server_version 3 is
untouched by an incoming version 3 and overwritten by an incoming version 4. -/
theorem saveJob_dirty_merge_witness :
    (saveJob [⟨"job-1", ⟨"job-1", 2, "local edit"⟩, some 3, 5, true, some 11, 4⟩] 20
        ⟨"job-1", 3, "server state"⟩ true =
      [⟨"job-1", ⟨"job-1", 2, "local edit"⟩, some 3, 5, true, some 11, 4⟩]) ∧
    (saveJob [⟨"job-1", ⟨"job-1", 2, "local edit"⟩, some 3, 5, true, some 11, 4⟩] 20
        ⟨"job-1", 4, "server state"⟩ true =
      [⟨"job-1", ⟨"job-1", 4, "server state"⟩, some 4, 5, false, some 20, 4⟩]) := by
  constructor
  · exact (saveJob_dirty_merge _ 20 _ _ (by rfl) rfl 3 rfl).1 (by decide)
  · have h := (saveJob_dirty_merge
      [⟨"job-1", ⟨"job-1", 2, "local edit"⟩, some 3, 5, true, some 11, 4⟩] 20
      ⟨"job-1", 4, "server state"⟩ _ (by rfl) rfl 3 rfl).2.1 (by decide)
    simpa [serverOverwrite] using h

/-- C9: a pull-phase upsert of a job whose local row is clean overwrites the
row unconditionally — data replaced, `server_version` set to the incoming
version, dirty flag cleared, `last_synced_at` stamped — even when the incoming
version is at most the stored `server_version`; and a dirty row whose
`server_version` is NULL is overwritten by any incoming version above 0. -/
theorem saveJob_clean_overwrite (db : List LocalJobRow) (now : Nat) (job : Job)
    (r : LocalJobRow) (hfind : db.find? (fun x => x.id == job.id) = some r) :
    (r.is_dirty = false → saveJob db now job true =
      db.map (fun x => if x.id == job.id then serverOverwrite now job x else x)) ∧
    (r.is_dirty = true → r.server_version = none → 0 < job.version →
      saveJob db now job true =
        db.map (fun x => if x.id == job.id then serverOverwrite now job x else x)) := by
  constructor
  · intro hclean
    simp [saveJob, hfind, hclean]
  · intro hdirty hver hpos
    simp [saveJob, hfind, hdirty, hver, hpos]

/-- Witness for `saveJob_clean_overwrite`: a clean row with server_version 7
is overwritten by an incoming version 2, and a dirty row with NULL
server_version is overwritten by an incoming version 1. -/
theorem saveJob_clean_overwrite_witness :
    (saveJob [⟨"j", ⟨"j", 6, "old"⟩, some 7, 1, false, some 9, 4⟩] 20
        ⟨"j", 2, "incoming"⟩ true =
      [⟨"j", ⟨"j", 2, "incoming"⟩, some 2, 1, false, some 20, 4⟩]) ∧
    (saveJob [⟨"k", ⟨"k", 0, "draft"⟩, none, 3, true, none, 4⟩] 21
        ⟨"k", 1, "incoming"⟩ true =
      [⟨"k", ⟨"k", 1, "incoming"⟩, some 1, 3, false, some 21, 4⟩]) := by
  constructor
  · have h := (saveJob_clean_overwrite
      [⟨"j", ⟨"j", 6, "old"⟩, some 7, 1, false, some 9, 4⟩] 20
      ⟨"j", 2, "incoming"⟩ _ (by rfl)).1 rfl
    simpa [serverOverwrite] using h
  · have h := (saveJob_clean_overwrite
      [⟨"k", ⟨"k", 0, "draft"⟩, none, 3, true, none, 4⟩] 21
      ⟨"k", 1, "incoming"⟩ _ (by rfl)).2 rfl rfl (by decide)
    simpa [serverOverwrite] using h

/-- The failure classification the engine reads off a thrown response:
a 409 / VERSION_CONFLICT, a 429 rate limit, or any other failure with its
message. -/
inductive SyncError
  | conflict
  | rateLimited
  | otherFailure (msg : String)
deriving DecidableEq, Repr

/-- `isRateLimitError` (syncStore.ts): the error is a 429 response. -/
def isRateLimitError : SyncError → Bool
  | .rateLimited => true
  | _ => false

/-- `isVersionConflict` (syncStore.ts): the error is a 409 response or
carries a VERSION_CONFLICT code. -/
def isVersionConflict : SyncError → Bool
  | .conflict => true
  | _ => false

/-- Outcome of one invocation of a wrapped remote call. -/
inductive CallOutcome
  | ok
  | err (e : SyncError)
deriving DecidableEq, Repr

/-- What a run of `retryWithBackoff` did: the value it returned or the error
it threw (`Except.error none` models rethrowing the TS `undefined` when no
attempt ever ran), the sleep durations performed, and how many times the
wrapped call was invoked. -/
structure RetryResult where
  outcome : Except (Option SyncError) Unit
  sleeps : List Nat
  calls : Nat
deriving Repr

/-- The loop body of `retryWithBackoff`.  `remaining` is the fuel
`maxRetries - attempt`; the TS loop runs while `attempt < maxRetries`, i.e.
while the fuel is positive.  A successful call returns; a non-rate-limit
error is rethrown at once; a rate-limit error sleeps
`baseDelay * 2 ^ attempt` when further attempts remain
(`attempt < maxRetries - 1`, i.e. fuel at least 2) and loops. -/
def retryAux (fn : Nat → CallOutcome) (baseDelay : Nat) :
    Nat → Nat → Option SyncError → List Nat → Nat → RetryResult
  | 0, _, lastErr, sleeps, calls => ⟨.error lastErr, sleeps, calls⟩
  | remaining + 1, attempt, _, sleeps, calls =>
    match fn attempt with
    | .ok => ⟨.ok (), sleeps, calls + 1⟩
    | .err e =>
      if isRateLimitError e then
        match remaining with
        | 0 => retryAux fn baseDelay 0 (attempt + 1) (some e) sleeps (calls + 1)
        | r + 1 =>
          retryAux fn baseDelay (r + 1) (attempt + 1) (some e)
            (sleeps ++ [baseDelay * 2 ^ attempt]) (calls + 1)
      else ⟨.error (some e), sleeps, calls + 1⟩

/-- `retryWithBackoff` (syncStore.ts): run the call, retrying only rate-limit
failures, with exponential backoff, at most `maxRetries` attempts in all.
`fn i` is the outcome of the call's i-th invocation. -/
def retryWithBackoff (fn : Nat → CallOutcome) (maxRetries baseDelay : Nat) :
    RetryResult :=
  retryAux fn baseDelay maxRetries 0 none [] 0

/-- C8: with the default cap of 3, the transport wrapper makes at most 3
calls; a second or third call happens only after a rate-limited failure; the
sleeps performed are exactly `base * 2 ^ i` between successive attempts; a
first-call failure that is not a rate limit is rethrown immediately with no
retry and no sleep; and three rate-limited attempts exhaust the budget,
rethrow the rate-limit error, and have slept `base` and `2 * base`. -/
theorem retryWithBackoff_spec (fn : Nat → CallOutcome) (base : Nat) :
    (retryWithBackoff fn 3 base).calls ≤ 3 ∧
    (2 ≤ (retryWithBackoff fn 3 base).calls → fn 0 = .err .rateLimited) ∧
    (3 ≤ (retryWithBackoff fn 3 base).calls → fn 1 = .err .rateLimited) ∧
    (retryWithBackoff fn 3 base).sleeps =
      (List.range ((retryWithBackoff fn 3 base).calls - 1)).map (fun i => base * 2 ^ i) ∧
    (∀ e, isRateLimitError e = false → fn 0 = .err e →
      retryWithBackoff fn 3 base = ⟨.error (some e), [], 1⟩) ∧
    ((∀ i, i < 3 → fn i = .err .rateLimited) →
      retryWithBackoff fn 3 base =
        ⟨.error (some .rateLimited), [base * 1, base * 2], 3⟩) := by
  rcases h0 : fn 0 with _ | e0
  · -- first call succeeds: one call, no sleep
    refine ⟨by simp [retryWithBackoff, retryAux, h0], ?_, ?_, ?_, ?_, ?_⟩
    · intro h; simp [retryWithBackoff, retryAux, h0] at h
    · intro h; simp [retryWithBackoff, retryAux, h0] at h
    · simp [retryWithBackoff, retryAux, h0]
    · intro e _ hfe; exact absurd hfe (by simp)
    · intro hall
      have hx := hall 0 (by decide)
      rw [h0] at hx
      exact absurd hx (by simp)
  · cases e0 with
    | conflict =>
      refine ⟨by simp [retryWithBackoff, retryAux, h0, isRateLimitError], ?_, ?_, ?_, ?_, ?_⟩
      · intro h; simp [retryWithBackoff, retryAux, h0, isRateLimitError] at h
      · intro h; simp [retryWithBackoff, retryAux, h0, isRateLimitError] at h
      · simp [retryWithBackoff, retryAux, h0, isRateLimitError]
      · intro e _ hfe
        cases hfe
        simp [retryWithBackoff, retryAux, h0, isRateLimitError]
      · intro hall
        have hx := hall 0 (by decide)
        rw [h0] at hx
        exact absurd hx (by simp)
    | otherFailure m =>
      refine ⟨by simp [retryWithBackoff, retryAux, h0, isRateLimitError], ?_, ?_, ?_, ?_, ?_⟩
      · intro h; simp [retryWithBackoff, retryAux, h0, isRateLimitError] at h
      · intro h; simp [retryWithBackoff, retryAux, h0, isRateLimitError] at h
      · simp [retryWithBackoff, retryAux, h0, isRateLimitError]
      · intro e _ hfe
        cases hfe
        simp [retryWithBackoff, retryAux, h0, isRateLimitError]
      · intro hall
        have hx := hall 0 (by decide)
        rw [h0] at hx
        exact absurd hx (by simp)
    | rateLimited =>
      rcases h1 : fn 1 with _ | e1
      · -- retry once, then success: two calls, one sleep
        refine ⟨by simp [retryWithBackoff, retryAux, h0, h1, isRateLimitError], ?_, ?_, ?_, ?_, ?_⟩
        · intro _; rfl
        · intro h; simp [retryWithBackoff, retryAux, h0, h1, isRateLimitError] at h
        · simp [retryWithBackoff, retryAux, h0, h1, isRateLimitError, List.range_succ]
        · intro e hre hfe
          cases hfe
          simp [isRateLimitError] at hre
        · intro hall
          have hx := hall 1 (by decide)
          rw [h1] at hx
          exact absurd hx (by simp)
      · cases e1 with
        | conflict =>
          refine ⟨by simp [retryWithBackoff, retryAux, h0, h1, isRateLimitError], ?_, ?_, ?_, ?_, ?_⟩
          · intro _; rfl
          · intro h; simp [retryWithBackoff, retryAux, h0, h1, isRateLimitError] at h
          · simp [retryWithBackoff, retryAux, h0, h1, isRateLimitError, List.range_succ]
          · intro e hre hfe
            cases hfe
            simp [isRateLimitError] at hre
          · intro hall
            have hx := hall 1 (by decide)
            rw [h1] at hx
            exact absurd hx (by simp)
        | otherFailure m =>
          refine ⟨by simp [retryWithBackoff, retryAux, h0, h1, isRateLimitError], ?_, ?_, ?_, ?_, ?_⟩
          · intro _; rfl
          · intro h; simp [retryWithBackoff, retryAux, h0, h1, isRateLimitError] at h
          · simp [retryWithBackoff, retryAux, h0, h1, isRateLimitError, List.range_succ]
          · intro e hre hfe
            cases hfe
            simp [isRateLimitError] at hre
          · intro hall
            have hx := hall 1 (by decide)
            rw [h1] at hx
            exact absurd hx (by simp)
        | rateLimited =>
          rcases h2 : fn 2 with _ | e2
          · -- two rate limits then success: three calls, two sleeps
            refine ⟨by simp [retryWithBackoff, retryAux, h0, h1, h2, isRateLimitError], ?_, ?_, ?_, ?_, ?_⟩
            · intro _; rfl
            · intro _; rfl
            · simp [retryWithBackoff, retryAux, h0, h1, h2, isRateLimitError,
                List.range_succ, pow_succ]
            · intro e hre hfe
              cases hfe
              simp [isRateLimitError] at hre
            · intro hall
              have hx := hall 2 (by decide)
              rw [h2] at hx
              exact absurd hx (by simp)
          · -- three failed attempts: budget exhausted, last error rethrown
            refine ⟨by simp [retryWithBackoff, retryAux, h0, h1, h2, isRateLimitError], ?_, ?_, ?_, ?_, ?_⟩
            · intro _; rfl
            · intro _; rfl
            · simp [retryWithBackoff, retryAux, h0, h1, h2, isRateLimitError,
                List.range_succ, pow_succ]
            · intro e hre hfe
              cases hfe
              simp [isRateLimitError] at hre
            · intro hall
              have hx := hall 2 (by decide)
              rw [h2] at hx
              cases hx
              simp [retryWithBackoff, retryAux, h0, h1, h2, isRateLimitError, pow_succ,
                Nat.mul_comm]


/-- Witness for `retryWithBackoff_spec`: with every attempt rate-limited and
base delay 100, the wrapper makes exactly 3 calls, sleeps 100 then 200, and
rethrows the rate-limit error. -/
theorem retryWithBackoff_spec_witness :
    retryWithBackoff (fun _ => CallOutcome.err SyncError.rateLimited) 3 100 =
      ⟨Except.error (some SyncError.rateLimited), [100, 200], 3⟩ := by
  have h := (retryWithBackoff_spec (fun _ => CallOutcome.err SyncError.rateLimited) 100).2.2.2.2.2
    (fun i _ => rfl)
  simpa using h

/-- The remote requests `processQueueItem` can issue for a queue item. -/
inductive RemoteCall
  | patchJob (entityId : String) (payload : Payload)
  | completeJobCall (entityId : String) (payload : Payload)
  | checklistBatch (entityId : String) (payload : Payload)
deriving DecidableEq, Repr

/-- JS truthiness of `payload.version : number | undefined`
(undefined and 0 are falsy). -/
def truthy : Option Nat → Bool
  | some v => decide (v ≠ 0)
  | none => false

/-- `processQueueItem` (syncStore.ts) as a routing function: which remote
call, if any, the item produces.  A job update PATCHes the job; a checklist
update POSTs the complete endpoint when `payload.completeJob && payload.version`
is truthy and the batch endpoint otherwise; photos, signatures and non-update
actions fall through the switch without any request. -/
def itemRemoteCall (item : SyncQueueItem) : Option RemoteCall :=
  match item.entityType with
  | .job =>
    match item.action with
    | .update => some (.patchJob item.entityId item.payload)
    | _ => none
  | .checklist_response =>
    match item.action with
    | .update =>
      if item.payload.completeJob && truthy item.payload.version then
        some (.completeJobCall item.entityId item.payload)
      else
        some (.checklistBatch item.entityId item.payload)
    | _ => none
  | .photo => none
  | .signature => none

/-- The network environment of one push phase: the outcome of the n-th
transmission attempt of each item's remote call, and the result of the
`GET /jobs/:id` fetch used by server-wins conflict resolution (`none` models
a failed fetch, which the source catches and logs). -/
structure PushEnv where
  attempt : SyncQueueItem → Nat → CallOutcome
  fetchJob : String → Option Job

/-- The function `retryWithBackoff` wraps for an item: `processQueueItem`
resolves immediately when the item needs no remote call, and otherwise has
the outcome of the item's remote call attempt. -/
def itemFn (env : PushEnv) (item : SyncQueueItem) : Nat → CallOutcome :=
  match itemRemoteCall item with
  | none => fun _ => CallOutcome.ok
  | some _ => env.attempt item

/-- Final outcome of `retryWithBackoff(() => processQueueItem(item))` with the
source defaults (3 attempts, base delay 1000). -/
def itemOutcome (env : PushEnv) (item : SyncQueueItem) : Except (Option SyncError) Unit :=
  (retryWithBackoff (itemFn env item) 3 1000).outcome

/-- `handleConflictServerWins` (syncStore.ts): for a job item, fetch the
authoritative record and apply it through the server-origin `saveJob` path; a
fetch failure is caught and leaves the store untouched, as does any other
entity type. -/
def handleConflictServerWins (env : PushEnv) (now : Nat) (db : List LocalJobRow)
    (item : SyncQueueItem) : List LocalJobRow :=
  if item.entityType == SyncEntityType.job then
    match env.fetchJob item.entityId with
    | some serverJob => saveJob db now serverJob true
    | none => db
  else db

/-- The `isVersionConflict` test on a caught value (a rethrown TS `undefined`
is modelled by `none` and matches nothing). -/
def errIsConflict : Option SyncError → Bool
  | some e => isVersionConflict e
  | none => false

/-- The `isRateLimitError` test on a caught value. -/
def errIsRateLimit : Option SyncError → Bool
  | some e => isRateLimitError e
  | none => false

/-- `error instanceof Error ? error.message : 'Unknown error'` for the values
reaching the `markItemFailed` branch. -/
def errMessage : Option SyncError → String
  | some (.otherFailure msg) => msg
  | _ => "Unknown error"

/-- Observable actions of one push phase, in order. -/
inductive PushEvent
  | success (id : Nat)
  | conflictResolved (id : Nat)
  | failed (id : Nat) (msg : String)
  | rateLimitStop
deriving DecidableEq, Repr

/-- Does the event mention queue item `id`? -/
def eventTouches (id : Nat) : PushEvent → Bool
  | .success i => i == id
  | .conflictResolved i => i == id
  | .failed i _ => i == id
  | .rateLimitStop => false

/-- The `for (const item of items)` loop of `pushChanges` (syncStore.ts):
success deletes the item; a version conflict runs server-wins resolution and
then deletes the item; a rate limit (after the transport wrapper's budget)
breaks out of the loop leaving queue and store as they are; anything else
increments the item's retry count with the error message.  All failure paths
are caught, so the loop always returns; the event list records what it did. -/
def pushLoop (env : PushEnv) (now : Nat) :
    List SyncQueueItem → QueueState → List LocalJobRow →
    QueueState × List LocalJobRow × List PushEvent
  | [], q, db => (q, db, [])
  | item :: rest, q, db =>
    match itemOutcome env item with
    | .ok _ =>
      let next := pushLoop env now rest (markItemSuccess q item.id) db
      (next.1, next.2.1, PushEvent.success item.id :: next.2.2)
    | .error err =>
      if errIsConflict err then
        let db2 := handleConflictServerWins env now db item
        let next := pushLoop env now rest (removeFromQueue q item.id) db2
        (next.1, next.2.1, PushEvent.conflictResolved item.id :: next.2.2)
      else if errIsRateLimit err then
        (q, db, [PushEvent.rateLimitStop])
      else
        let next := pushLoop env now rest (markItemFailed q item.id (errMessage err)) db
        (next.1, next.2.1, PushEvent.failed item.id (errMessage err) :: next.2.2)

/-- `pushChanges` (syncStore.ts): run the loop over `getNextQueueItems(10)`. -/
def pushChanges (env : PushEnv) (now : Nat) (q : QueueState) (db : List LocalJobRow) :
    QueueState × List LocalJobRow × List PushEvent :=
  pushLoop env now (getNextQueueItems q 10).2 q db

/-- Does processing this item hit the `break`: a final outcome that is not a
conflict but is a rate limit? -/
def stopsBatch (env : PushEnv) (item : SyncQueueItem) : Bool :=
  match itemOutcome env item with
  | .ok _ => false
  | .error err => !errIsConflict err && errIsRateLimit err

theorem find?_id_filter_ne (l : List SyncQueueItem) (i j : Nat) (hij : j ≠ i) :
    (l.filter (fun it => it.id != i)).find? (fun it => it.id == j) =
      l.find? (fun it => it.id == j) := by
  induction l with
  | nil => rfl
  | cons x xs ih =>
    rw [List.filter_cons]
    by_cases hx : x.id = i
    · have h1 : (x.id != i) = true ↔ False := by simp [hx]
      rw [if_neg (by simp [h1])]
      rw [List.find?_cons_of_neg xs (by simp; omega), ih]
    · rw [if_pos (by simp [hx])]
      by_cases hxj : x.id = j
      · rw [List.find?_cons_of_pos _ (by simp [hxj]),
          List.find?_cons_of_pos _ (by simp [hxj])]
      · rw [List.find?_cons_of_neg _ (by simp [hxj]),
          List.find?_cons_of_neg _ (by simp [hxj]), ih]

theorem find?_id_filter_self (l : List SyncQueueItem) (i : Nat) :
    (l.filter (fun it => it.id != i)).find? (fun it => it.id == i) = none := by
  rw [List.find?_eq_none]
  intro x hx
  have := (List.mem_filter.mp hx).2
  simpa using this

theorem find?_id_mapIf (l : List SyncQueueItem) (i j : Nat)
    (f : SyncQueueItem → SyncQueueItem) (hf : ∀ it, (f it).id = it.id) (hij : j ≠ i) :
    (l.map (fun it => if it.id == i then f it else it)).find? (fun it => it.id == j) =
      l.find? (fun it => it.id == j) := by
  induction l with
  | nil => rfl
  | cons x xs ih =>
    rw [List.map_cons]
    by_cases hx : x.id = i
    · have hxj : x.id ≠ j := by omega
      have hfx : (f x).id ≠ j := by rw [hf]; exact hxj
      rw [List.find?_cons_of_neg _ (by simp [hx, hfx]),
        List.find?_cons_of_neg _ (by simp [hxj]), ih]
    · by_cases hxj : x.id = j
      · have hxi : (x.id == i) = false := by simp [hx]
        have hel : (if (x.id == i) = true then f x else x) = x := by
          rw [hxi]
          simp
        rw [hel, List.find?_cons_of_pos _ (by simp [hxj]),
          List.find?_cons_of_pos _ (by simp [hxj])]
      · rw [List.find?_cons_of_neg _ (by simp [hx, hxj]),
          List.find?_cons_of_neg _ (by simp [hxj]), ih]

theorem lookupQueue_markItemSuccess_ne (q : QueueState) (i j : Nat) (hij : j ≠ i) :
    lookupQueue (markItemSuccess q i) j = lookupQueue q j :=
  find?_id_filter_ne q.items i j hij

theorem lookupQueue_markItemSuccess_self (q : QueueState) (i : Nat) :
    lookupQueue (markItemSuccess q i) i = none :=
  find?_id_filter_self q.items i

theorem lookupQueue_removeFromQueue_ne (q : QueueState) (i j : Nat) (hij : j ≠ i) :
    lookupQueue (removeFromQueue q i) j = lookupQueue q j :=
  find?_id_filter_ne q.items i j hij

theorem lookupQueue_removeFromQueue_self (q : QueueState) (i : Nat) :
    lookupQueue (removeFromQueue q i) i = none :=
  find?_id_filter_self q.items i

theorem lookupQueue_markItemFailed_ne (q : QueueState) (i j : Nat) (msg : String)
    (hij : j ≠ i) :
    lookupQueue (markItemFailed q i msg) j = lookupQueue q j := by
  refine find?_id_mapIf q.items i j _ ?_ hij
  intro it
  rfl

theorem pushLoop_lookup_not_mem (env : PushEnv) (now : Nat)
    (batch : List SyncQueueItem) :
    ∀ (q : QueueState) (db : List LocalJobRow) (j : Nat),
      j ∉ batch.map (fun x => x.id) →
      lookupQueue (pushLoop env now batch q db).1 j = lookupQueue q j := by
  induction batch with
  | nil =>
    intro q db j _
    rfl
  | cons item rest ih =>
    intro q db j hj
    have hji : j ≠ item.id := by
      intro h
      exact hj (by simp [h])
    have hjr : j ∉ rest.map (fun x => x.id) := by
      intro h
      exact hj (by simp [List.mem_map] at h ⊢; tauto)
    rcases ho : itemOutcome env item with err | u
    · rcases hc : errIsConflict err with _ | _
      · rcases hr : errIsRateLimit err with _ | _
        · rw [show pushLoop env now (item :: rest) q db =
            (let next := pushLoop env now rest (markItemFailed q item.id (errMessage err)) db
             (next.1, next.2.1, PushEvent.failed item.id (errMessage err) :: next.2.2)) by
              simp [pushLoop, ho, hc, hr]]
          simpa [ih _ db j hjr] using lookupQueue_markItemFailed_ne q item.id j (errMessage err) hji
        · rw [show pushLoop env now (item :: rest) q db = (q, db, [PushEvent.rateLimitStop]) by
            simp [pushLoop, ho, hc, hr]]
      · rw [show pushLoop env now (item :: rest) q db =
          (let db2 := handleConflictServerWins env now db item
           let next := pushLoop env now rest (removeFromQueue q item.id) db2
           (next.1, next.2.1, PushEvent.conflictResolved item.id :: next.2.2)) by
            simp [pushLoop, ho, hc]]
        simpa [ih _ _ j hjr] using lookupQueue_removeFromQueue_ne q item.id j hji
    · rw [show pushLoop env now (item :: rest) q db =
        (let next := pushLoop env now rest (markItemSuccess q item.id) db
         (next.1, next.2.1, PushEvent.success item.id :: next.2.2)) by
          simp [pushLoop, ho]]
      simpa [ih _ db j hjr] using lookupQueue_markItemSuccess_ne q item.id j hji

theorem pushLoop_events_not_mem (env : PushEnv) (now : Nat)
    (batch : List SyncQueueItem) :
    ∀ (q : QueueState) (db : List LocalJobRow) (j : Nat),
      j ∉ batch.map (fun x => x.id) →
      (pushLoop env now batch q db).2.2.countP (fun ev => eventTouches j ev) = 0 := by
  induction batch with
  | nil =>
    intro q db j _
    rfl
  | cons item rest ih =>
    intro q db j hj
    have hji : item.id ≠ j := by
      intro h
      exact hj (by simp [h])
    have hjr : j ∉ rest.map (fun x => x.id) := by
      intro h
      exact hj (by simp [List.mem_map] at h ⊢; tauto)
    rcases ho : itemOutcome env item with err | u
    · rcases hc : errIsConflict err with _ | _
      · rcases hr : errIsRateLimit err with _ | _
        · have hev : (pushLoop env now (item :: rest) q db).2.2 =
              PushEvent.failed item.id (errMessage err) ::
                (pushLoop env now rest (markItemFailed q item.id (errMessage err)) db).2.2 := by
            simp [pushLoop, ho, hc, hr]
          rw [hev, List.countP_cons, ih _ db j hjr]
          simp [eventTouches, hji]
        · have hev : (pushLoop env now (item :: rest) q db).2.2 =
              [PushEvent.rateLimitStop] := by
            simp [pushLoop, ho, hc, hr]
          rw [hev]
          simp [List.countP_cons, eventTouches]
      · have hev : (pushLoop env now (item :: rest) q db).2.2 =
            PushEvent.conflictResolved item.id ::
              (pushLoop env now rest (removeFromQueue q item.id)
                (handleConflictServerWins env now db item)).2.2 := by
          simp [pushLoop, ho, hc]
        rw [hev, List.countP_cons, ih _ (handleConflictServerWins env now db item) j hjr]
        simp [eventTouches, hji]
    · have hev : (pushLoop env now (item :: rest) q db).2.2 =
          PushEvent.success item.id ::
            (pushLoop env now rest (markItemSuccess q item.id) db).2.2 := by
        simp [pushLoop, ho]
      rw [hev, List.countP_cons, ih _ db j hjr]
      simp [eventTouches, hji]

theorem pushLoop_append_continue (env : PushEnv) (now : Nat)
    (pre : List SyncQueueItem) :
    ∀ (rest : List SyncQueueItem) (q : QueueState) (db : List LocalJobRow),
      (∀ x ∈ pre, stopsBatch env x = false) →
      pushLoop env now (pre ++ rest) q db =
        ((pushLoop env now rest (pushLoop env now pre q db).1
            (pushLoop env now pre q db).2.1).1,
         (pushLoop env now rest (pushLoop env now pre q db).1
            (pushLoop env now pre q db).2.1).2.1,
         (pushLoop env now pre q db).2.2 ++
           (pushLoop env now rest (pushLoop env now pre q db).1
              (pushLoop env now pre q db).2.1).2.2) := by
  induction pre with
  | nil =>
    intro rest q db _
    rfl
  | cons item pre' ih =>
    intro rest q db hpre
    have hitem : stopsBatch env item = false := hpre item (by simp)
    have hpre' : ∀ x ∈ pre', stopsBatch env x = false := by
      intro x hx
      exact hpre x (by simp [hx])
    rcases ho : itemOutcome env item with err | u
    · rcases hc : errIsConflict err with _ | _
      · rcases hr : errIsRateLimit err with _ | _
        · simp only [List.cons_append, pushLoop, ho, hc, hr]
          simp [ih rest (markItemFailed q item.id (errMessage err)) db hpre']
        · exfalso
          simp [stopsBatch, ho, hc, hr] at hitem
      · simp only [List.cons_append, pushLoop, ho, hc]
        simp [ih rest (removeFromQueue q item.id)
          (handleConflictServerWins env now db item) hpre']
    · simp only [List.cons_append, pushLoop, ho]
      simp [ih rest (markItemSuccess q item.id) db hpre']

/-- C4: if the push batch reaches an item that is rate-limited even after the
transport wrapper's retry budget, the push phase stops there: the cycle's
outcome is exactly the outcome of processing the earlier items plus a stop
event (so the earlier items were already marked success, failed or resolved
as usual, no error is surfaced, and in particular the rate-limited item and
everything after it get no retryCount increment, no lastError and are not
removed); every queue entry whose id was not processed earlier is untouched. -/
theorem pushChanges_rateLimit_pause (env : PushEnv) (now : Nat) (q : QueueState)
    (db : List LocalJobRow) (pre post : List SyncQueueItem) (item : SyncQueueItem)
    (hbatch : (getNextQueueItems q 10).2 = pre ++ item :: post)
    (hpre : ∀ x ∈ pre, stopsBatch env x = false)
    (hit : stopsBatch env item = true) :
    pushChanges env now q db =
      ((pushLoop env now pre q db).1, (pushLoop env now pre q db).2.1,
        (pushLoop env now pre q db).2.2 ++ [PushEvent.rateLimitStop]) ∧
    (∀ j, j ∉ pre.map (fun x => x.id) →
      lookupQueue (pushChanges env now q db).1 j = lookupQueue q j) := by
  have hstop : pushLoop env now (item :: post) (pushLoop env now pre q db).1
      (pushLoop env now pre q db).2.1 =
      ((pushLoop env now pre q db).1, (pushLoop env now pre q db).2.1,
        [PushEvent.rateLimitStop]) := by
    rcases ho : itemOutcome env item with err | u
    · rcases hc : errIsConflict err with _ | _
      · rcases hr : errIsRateLimit err with _ | _
        · simp [stopsBatch, ho, hc, hr] at hit
        · simp [pushLoop, ho, hc, hr]
      · simp [stopsBatch, ho, hc] at hit
    · simp [stopsBatch, ho] at hit
  have hmain : pushChanges env now q db =
      ((pushLoop env now pre q db).1, (pushLoop env now pre q db).2.1,
        (pushLoop env now pre q db).2.2 ++ [PushEvent.rateLimitStop]) := by
    rw [pushChanges, hbatch,
      pushLoop_append_continue env now pre (item :: post) q db hpre, hstop]
  refine ⟨hmain, ?_⟩
  intro j hj
  rw [hmain]
  exact pushLoop_lookup_not_mem env now pre q db j hj

/-- Witness for `pushChanges_rateLimit_pause`: a single-item batch whose item
is rate-limited on every attempt leaves the queue and store untouched and
records only the stop. -/
theorem pushChanges_rateLimit_pause_witness :
    ((getNextQueueItems ⟨[⟨1, SyncEntityType.job, "job-1", SyncAct.update,
        ⟨some 1, false, "p"⟩, none, 0, none, 0, 5⟩], 2⟩ 10).2 =
      [] ++ ⟨1, SyncEntityType.job, "job-1", SyncAct.update,
        ⟨some 1, false, "p"⟩, none, 0, none, 0, 5⟩ :: []) ∧
    stopsBatch ⟨fun _ _ => CallOutcome.err SyncError.rateLimited, fun _ => none⟩
      ⟨1, SyncEntityType.job, "job-1", SyncAct.update,
        ⟨some 1, false, "p"⟩, none, 0, none, 0, 5⟩ = true ∧
    pushChanges ⟨fun _ _ => CallOutcome.err SyncError.rateLimited, fun _ => none⟩ 5
      ⟨[⟨1, SyncEntityType.job, "job-1", SyncAct.update,
          ⟨some 1, false, "p"⟩, none, 0, none, 0, 5⟩], 2⟩ [] =
      (⟨[⟨1, SyncEntityType.job, "job-1", SyncAct.update,
          ⟨some 1, false, "p"⟩, none, 0, none, 0, 5⟩], 2⟩, [],
        [PushEvent.rateLimitStop]) := by
  refine ⟨by simp [getNextQueueItems], rfl, ?_⟩
  have h := (pushChanges_rateLimit_pause
    ⟨fun _ _ => CallOutcome.err SyncError.rateLimited, fun _ => none⟩ 5
    ⟨[⟨1, SyncEntityType.job, "job-1", SyncAct.update,
        ⟨some 1, false, "p"⟩, none, 0, none, 0, 5⟩], 2⟩ [] [] []
    ⟨1, SyncEntityType.job, "job-1", SyncAct.update,
      ⟨some 1, false, "p"⟩, none, 0, none, 0, 5⟩ (by simp [getNextQueueItems]) (by simp) rfl).1
  simpa using h

/-- C3: a queue item reached by the push loop whose transmission attempt
returns a version conflict is handled terminally: the transport wrapper makes
exactly one call (a conflict is never retried), the loop then runs server-wins
resolution followed by removal of the item (for every environment, so also
when the resolver's fetch fails), the item's id is mentioned by exactly one
push event (its single conflict resolution), and the item is gone from the
resulting queue. -/
theorem pushChanges_conflict_terminal (env : PushEnv) (now : Nat) (q : QueueState)
    (db : List LocalJobRow) (pre post : List SyncQueueItem) (item : SyncQueueItem)
    (hbatch : (getNextQueueItems q 10).2 = pre ++ item :: post)
    (hpre : ∀ x ∈ pre, stopsBatch env x = false)
    (hc : itemFn env item 0 = CallOutcome.err SyncError.conflict)
    (hid1 : item.id ∉ pre.map (fun x => x.id))
    (hid2 : item.id ∉ post.map (fun x => x.id)) :
    retryWithBackoff (itemFn env item) 3 1000 =
      ⟨Except.error (some SyncError.conflict), [], 1⟩ ∧
    pushChanges env now q db =
      ((pushLoop env now post
          (removeFromQueue (pushLoop env now pre q db).1 item.id)
          (handleConflictServerWins env now (pushLoop env now pre q db).2.1 item)).1,
       (pushLoop env now post
          (removeFromQueue (pushLoop env now pre q db).1 item.id)
          (handleConflictServerWins env now (pushLoop env now pre q db).2.1 item)).2.1,
       (pushLoop env now pre q db).2.2 ++
         PushEvent.conflictResolved item.id ::
           (pushLoop env now post
              (removeFromQueue (pushLoop env now pre q db).1 item.id)
              (handleConflictServerWins env now (pushLoop env now pre q db).2.1 item)).2.2) ∧
    (pushChanges env now q db).2.2.countP (fun ev => eventTouches item.id ev) = 1 ∧
    lookupQueue (pushChanges env now q db).1 item.id = none := by
  have hretry : retryWithBackoff (itemFn env item) 3 1000 =
      ⟨Except.error (some SyncError.conflict), [], 1⟩ := by
    simp [retryWithBackoff, retryAux, hc, isRateLimitError]
  have ho : itemOutcome env item = Except.error (some SyncError.conflict) := by
    rw [itemOutcome, hretry]
  have hstep : pushLoop env now (item :: post) (pushLoop env now pre q db).1
      (pushLoop env now pre q db).2.1 =
      ((pushLoop env now post
          (removeFromQueue (pushLoop env now pre q db).1 item.id)
          (handleConflictServerWins env now (pushLoop env now pre q db).2.1 item)).1,
       (pushLoop env now post
          (removeFromQueue (pushLoop env now pre q db).1 item.id)
          (handleConflictServerWins env now (pushLoop env now pre q db).2.1 item)).2.1,
       PushEvent.conflictResolved item.id ::
         (pushLoop env now post
            (removeFromQueue (pushLoop env now pre q db).1 item.id)
            (handleConflictServerWins env now (pushLoop env now pre q db).2.1 item)).2.2) := by
    simp [pushLoop, ho, errIsConflict, isVersionConflict]
  have hmain : pushChanges env now q db =
      ((pushLoop env now post
          (removeFromQueue (pushLoop env now pre q db).1 item.id)
          (handleConflictServerWins env now (pushLoop env now pre q db).2.1 item)).1,
       (pushLoop env now post
          (removeFromQueue (pushLoop env now pre q db).1 item.id)
          (handleConflictServerWins env now (pushLoop env now pre q db).2.1 item)).2.1,
       (pushLoop env now pre q db).2.2 ++
         PushEvent.conflictResolved item.id ::
           (pushLoop env now post
              (removeFromQueue (pushLoop env now pre q db).1 item.id)
              (handleConflictServerWins env now (pushLoop env now pre q db).2.1 item)).2.2) := by
    rw [pushChanges, hbatch,
      pushLoop_append_continue env now pre (item :: post) q db hpre, hstep]
  refine ⟨hretry, hmain, ?_, ?_⟩
  · rw [hmain]
    simp only [List.countP_append, List.countP_cons]
    rw [pushLoop_events_not_mem env now pre q db item.id hid1,
      pushLoop_events_not_mem env now post
        (removeFromQueue (pushLoop env now pre q db).1 item.id)
        (handleConflictServerWins env now (pushLoop env now pre q db).2.1 item)
        item.id hid2]
    simp [eventTouches]
  · rw [hmain]
    have h1 := pushLoop_lookup_not_mem env now post
      (removeFromQueue (pushLoop env now pre q db).1 item.id)
      (handleConflictServerWins env now (pushLoop env now pre q db).2.1 item)
      item.id hid2
    simpa [lookupQueue_removeFromQueue_self] using h1

/-- Witness for `pushChanges_conflict_terminal`: a single-item batch whose
item conflicts, in an environment where the resolver's fetch fails, still
removes the item and records exactly one conflict-resolution event. -/
theorem pushChanges_conflict_terminal_witness :
    itemFn ⟨fun _ _ => CallOutcome.err SyncError.conflict, fun _ => none⟩
      ⟨1, SyncEntityType.job, "job-1", SyncAct.update,
        ⟨some 1, false, "p"⟩, none, 0, none, 0, 5⟩ 0 =
      CallOutcome.err SyncError.conflict ∧
    pushChanges ⟨fun _ _ => CallOutcome.err SyncError.conflict, fun _ => none⟩ 5
      ⟨[⟨1, SyncEntityType.job, "job-1", SyncAct.update,
          ⟨some 1, false, "p"⟩, none, 0, none, 0, 5⟩], 2⟩ [] =
      (⟨[], 2⟩, [], [PushEvent.conflictResolved 1]) := by
  refine ⟨rfl, ?_⟩
  have h := (pushChanges_conflict_terminal
    ⟨fun _ _ => CallOutcome.err SyncError.conflict, fun _ => none⟩ 5
    ⟨[⟨1, SyncEntityType.job, "job-1", SyncAct.update,
        ⟨some 1, false, "p"⟩, none, 0, none, 0, 5⟩], 2⟩ [] [] []
    ⟨1, SyncEntityType.job, "job-1", SyncAct.update,
      ⟨some 1, false, "p"⟩, none, 0, none, 0, 5⟩ (by simp [getNextQueueItems]) (by simp) rfl
    (by simp) (by simp)).2.1
  simpa [pushLoop, handleConflictServerWins, removeFromQueue, markItemSuccess] using h

/-- C10: a queue item whose entityType is photo or signature, or whose action
is not update, produces no remote request at all, yet its wrapped processing
succeeds, so the push loop marks it success: it is recorded by exactly one
success event and is permanently gone from the resulting queue. -/
theorem pushChanges_skip_success (env : PushEnv) (now : Nat) (q : QueueState)
    (db : List LocalJobRow) (pre post : List SyncQueueItem) (item : SyncQueueItem)
    (hbatch : (getNextQueueItems q 10).2 = pre ++ item :: post)
    (hpre : ∀ x ∈ pre, stopsBatch env x = false)
    (hskip : item.entityType = SyncEntityType.photo ∨
      item.entityType = SyncEntityType.signature ∨ item.action ≠ SyncAct.update)
    (hid1 : item.id ∉ pre.map (fun x => x.id))
    (hid2 : item.id ∉ post.map (fun x => x.id)) :
    itemRemoteCall item = none ∧
    itemOutcome env item = Except.ok () ∧
    pushChanges env now q db =
      ((pushLoop env now post
          (markItemSuccess (pushLoop env now pre q db).1 item.id)
          (pushLoop env now pre q db).2.1).1,
       (pushLoop env now post
          (markItemSuccess (pushLoop env now pre q db).1 item.id)
          (pushLoop env now pre q db).2.1).2.1,
       (pushLoop env now pre q db).2.2 ++
         PushEvent.success item.id ::
           (pushLoop env now post
              (markItemSuccess (pushLoop env now pre q db).1 item.id)
              (pushLoop env now pre q db).2.1).2.2) ∧
    (pushChanges env now q db).2.2.countP (fun ev => eventTouches item.id ev) = 1 ∧
    lookupQueue (pushChanges env now q db).1 item.id = none := by
  have hrc : itemRemoteCall item = none := by
    rcases hskip with h | h | h
    · simp [itemRemoteCall, h]
    · simp [itemRemoteCall, h]
    · cases het : item.entityType <;> cases hac : item.action <;>
        simp_all [itemRemoteCall]
  have ho : itemOutcome env item = Except.ok () := by
    simp [itemOutcome, itemFn, hrc, retryWithBackoff, retryAux]
  have hstep : pushLoop env now (item :: post) (pushLoop env now pre q db).1
      (pushLoop env now pre q db).2.1 =
      ((pushLoop env now post
          (markItemSuccess (pushLoop env now pre q db).1 item.id)
          (pushLoop env now pre q db).2.1).1,
       (pushLoop env now post
          (markItemSuccess (pushLoop env now pre q db).1 item.id)
          (pushLoop env now pre q db).2.1).2.1,
       PushEvent.success item.id ::
         (pushLoop env now post
            (markItemSuccess (pushLoop env now pre q db).1 item.id)
            (pushLoop env now pre q db).2.1).2.2) := by
    simp [pushLoop, ho]
  have hmain : pushChanges env now q db =
      ((pushLoop env now post
          (markItemSuccess (pushLoop env now pre q db).1 item.id)
          (pushLoop env now pre q db).2.1).1,
       (pushLoop env now post
          (markItemSuccess (pushLoop env now pre q db).1 item.id)
          (pushLoop env now pre q db).2.1).2.1,
       (pushLoop env now pre q db).2.2 ++
         PushEvent.success item.id ::
           (pushLoop env now post
              (markItemSuccess (pushLoop env now pre q db).1 item.id)
              (pushLoop env now pre q db).2.1).2.2) := by
    rw [pushChanges, hbatch,
      pushLoop_append_continue env now pre (item :: post) q db hpre, hstep]
  refine ⟨hrc, ho, hmain, ?_, ?_⟩
  · rw [hmain]
    simp only [List.countP_append, List.countP_cons]
    rw [pushLoop_events_not_mem env now pre q db item.id hid1,
      pushLoop_events_not_mem env now post
        (markItemSuccess (pushLoop env now pre q db).1 item.id)
        (pushLoop env now pre q db).2.1 item.id hid2]
    simp [eventTouches]
  · rw [hmain]
    have h1 := pushLoop_lookup_not_mem env now post
      (markItemSuccess (pushLoop env now pre q db).1 item.id)
      (pushLoop env now pre q db).2.1 item.id hid2
    simpa [lookupQueue_markItemSuccess_self] using h1

/-- Witness for `pushChanges_skip_success`: a photo item, in an environment
whose every remote attempt would fail, is still marked success and removed,
with no remote call made. -/
theorem pushChanges_skip_success_witness :
    (⟨1, SyncEntityType.photo, "ph-1", SyncAct.create,
        ⟨none, false, "img"⟩, some "file.jpg", 0, none, 0, 5⟩ : SyncQueueItem).entityType =
      SyncEntityType.photo ∧
    itemRemoteCall ⟨1, SyncEntityType.photo, "ph-1", SyncAct.create,
      ⟨none, false, "img"⟩, some "file.jpg", 0, none, 0, 5⟩ = none ∧
    pushChanges ⟨fun _ _ => CallOutcome.err SyncError.rateLimited, fun _ => none⟩ 5
      ⟨[⟨1, SyncEntityType.photo, "ph-1", SyncAct.create,
          ⟨none, false, "img"⟩, some "file.jpg", 0, none, 0, 5⟩], 2⟩ [] =
      (⟨[], 2⟩, [], [PushEvent.success 1]) := by
  refine ⟨rfl, rfl, ?_⟩
  have h := (pushChanges_skip_success
    ⟨fun _ _ => CallOutcome.err SyncError.rateLimited, fun _ => none⟩ 5
    ⟨[⟨1, SyncEntityType.photo, "ph-1", SyncAct.create,
        ⟨none, false, "img"⟩, some "file.jpg", 0, none, 0, 5⟩], 2⟩ [] [] []
    ⟨1, SyncEntityType.photo, "ph-1", SyncAct.create,
      ⟨none, false, "img"⟩, some "file.jpg", 0, none, 0, 5⟩ (by simp [getNextQueueItems]) (by simp)
    (Or.inl rfl) (by simp) (by simp)).2.2.1
  simpa [pushLoop, markItemSuccess] using h

/-- `NetworkStatus` (types): `'online' | 'offline' | 'unknown'`. -/
inductive NetworkStatus
  | online
  | offline
  | unknown
deriving DecidableEq, Repr

/-- The sync store fields the reconciliation cycle reads and writes.
Timestamps (`lastSyncedAt`, an ISO-8601 string in the source) are modelled as
naturals, which ISO strings are order-isomorphic to. -/
structure SyncStoreState where
  networkStatus : NetworkStatus
  isSyncing : Bool
  lastSyncedAt : Option Nat
  errorMsg : Option String
deriving DecidableEq, Repr

/-- The body of a `/sync/pull` response as `pullChanges` consumes it:
`jobs.updated`, `jobs.deleted` and the server-reported `syncedAt`. -/
structure PullResponse where
  updatedJobs : List Job
  deletedJobs : List String
  syncedAt : Nat
deriving DecidableEq, Repr

/-- Application of a pull response to the jobs table: `saveJobs(updated, true)`
followed by `deleteJob` for each deleted id. -/
def applyPull (db : List LocalJobRow) (now : Nat) (resp : PullResponse) :
    List LocalJobRow :=
  resp.deletedJobs.foldl (fun d jid => deleteJob d jid)
    (saveJobs db now resp.updatedJobs true)

/-- `pullChanges` (syncStore.ts).  `pullResult` is the outcome the transport
wrapper delivered for the `/sync/pull` request.  On success the response is
applied and then the cursor is set to the server `syncedAt`; a rate-limit
failure is swallowed (nothing changes, nothing is rethrown); any other
failure is rethrown (third component `some e`) leaving state untouched. -/
def pullChanges (st : SyncStoreState) (db : List LocalJobRow) (now : Nat)
    (pullResult : Except SyncError PullResponse) :
    SyncStoreState × List LocalJobRow × Option SyncError :=
  match pullResult with
  | .ok resp =>
    ({ st with lastSyncedAt := some resp.syncedAt }, applyPull db now resp, none)
  | .error e =>
    if isRateLimitError e then (st, db, none) else (st, db, some e)

/-- `error instanceof Error ? error.message : 'Sync failed'` for the
`startSync` catch. -/
def syncFailMessage : SyncError → String
  | .otherFailure msg => msg
  | _ => "Sync failed"

/-- `startSync` (syncStore.ts): a no-op unless online and not already
syncing; otherwise pull, then push, and on success clear the syncing flag and
set `lastSyncedAt` to `new Date().toISOString()` — the device clock reading
`deviceNow`, not the server cursor; an error rethrown by the pull aborts the
cycle before the push and surfaces its message.  Returns the store state, the
queue and the jobs table. -/
def startSync (st : SyncStoreState) (q : QueueState) (db : List LocalJobRow)
    (now deviceNow : Nat) (pullResult : Except SyncError PullResponse)
    (env : PushEnv) : SyncStoreState × QueueState × List LocalJobRow :=
  if st.networkStatus == NetworkStatus.online && !st.isSyncing then
    let st1 := { st with isSyncing := true, errorMsg := none }
    let pulled := pullChanges st1 db now pullResult
    match pulled.2.2 with
    | some e =>
      ({ pulled.1 with isSyncing := false, errorMsg := some (syncFailMessage e) },
        q, pulled.2.1)
    | none =>
      let pushed := pushChanges env now q pulled.2.1
      ({ pulled.1 with isSyncing := false, lastSyncedAt := some deviceNow },
        pushed.1, pushed.2.1)
  else (st, q, db)

/-- C5 counterexample: start online and idle with cursor 100; the pull
succeeds with server-reported syncedAt 500 and is fully applied, and the
device clock reads 300 when the cycle finishes.  `pullChanges` does set the
cursor to 500, but `startSync` then overwrites it with the device time 300:
the cursor after the cycle is not the server-reported syncedAt of the pull
response, and it moved backward from 500 to 300 within the same cycle. -/
theorem syncCursor_counterexample :
    (pullChanges ⟨NetworkStatus.online, true, some 100, none⟩ [] 5
        (Except.ok ⟨[], [], 500⟩)).1.lastSyncedAt = some 500 ∧
    (startSync ⟨NetworkStatus.online, false, some 100, none⟩ ⟨[], 0⟩ [] 5 300
        (Except.ok ⟨[], [], 500⟩)
        ⟨fun _ _ => CallOutcome.ok, fun _ => none⟩).1.lastSyncedAt = some 300 ∧
    some (300 : Nat) ≠ some (500 : Nat) := by
  refine ⟨rfl, ?_, by decide⟩
  simp [startSync, pullChanges, applyPull, saveJobs, pushChanges, getNextQueueItems,
    pushLoop]

/-- C5 (amended): `pullChanges` sets the cursor exactly to the server-reported
`syncedAt`, simultaneously with the full application of the response, and a
rate-limited pull leaves cursor and store untouched without failing the
cycle; however, every successful `startSync` cycle afterwards overwrites the
cursor with the device-clock value, so after a full cycle the cursor holds
the device time rather than the server-reported syncedAt. -/
theorem syncCursor_amended (st : SyncStoreState) (db : List LocalJobRow)
    (now : Nat) (resp : PullResponse) (e : SyncError) (q : QueueState)
    (deviceNow : Nat) (env : PushEnv)
    (hon : st.networkStatus = NetworkStatus.online) (hs : st.isSyncing = false) :
    pullChanges st db now (Except.ok resp) =
      ({ st with lastSyncedAt := some resp.syncedAt }, applyPull db now resp, none) ∧
    (isRateLimitError e = true → pullChanges st db now (Except.error e) = (st, db, none)) ∧
    (startSync st q db now deviceNow (Except.ok resp) env).1.lastSyncedAt =
      some deviceNow := by
  refine ⟨rfl, ?_, ?_⟩
  · intro hrl
    simp [pullChanges, hrl]
  · simp [startSync, hon, hs, pullChanges]

/-- Witness for `syncCursor_amended` at an online, idle store. -/
theorem syncCursor_amended_witness :
    pullChanges ⟨NetworkStatus.online, false, some 100, none⟩ [] 5
        (Except.ok ⟨[], [], 500⟩) =
      (⟨NetworkStatus.online, false, some 500, none⟩, [], none) ∧
    (startSync ⟨NetworkStatus.online, false, some 100, none⟩ ⟨[], 0⟩ [] 5 300
        (Except.ok ⟨[], [], 500⟩)
        ⟨fun _ _ => CallOutcome.ok, fun _ => none⟩).1.lastSyncedAt = some 300 := by
  have h := syncCursor_amended ⟨NetworkStatus.online, false, some 100, none⟩ [] 5
    ⟨[], [], 500⟩ SyncError.rateLimited ⟨[], 0⟩ 300
    ⟨fun _ _ => CallOutcome.ok, fun _ => none⟩ rfl rfl
  exact ⟨by simpa [applyPull, saveJobs] using h.1, h.2.2⟩

/-- `SyncConflict` (types): a recorded version conflict awaiting a manual
choice.  `localData` is the payload of the queue item that conflicted;
`serverData` is the authoritative server record. -/
structure SyncConflict where
  id : Nat
  entityType : SyncEntityType
  entityId : String
  localData : Payload
  serverData : Job
  resolved : Bool
  createdAt : Nat
deriving DecidableEq, Repr

/-- The `'local' | 'server'` argument of `resolveConflict`. -/
inductive ConflictChoice
  | localChoice
  | serverChoice
deriving DecidableEq, Repr

/-- `resolveConflict` (syncStore.ts): look up the conflict by id (unknown ids
are a no-op); on 'local', `addToQueue(entityType, entityId, 'update',
localData, undefined, 10)` — the local payload verbatim at priority 10 — then
drop the conflict from the list (the source then triggers `pushChanges`,
modelled separately); on 'server', apply the captured server data through the
server-origin `saveJob` path for job conflicts and drop the conflict. -/
def resolveConflict (conflicts : List SyncConflict) (q : QueueState)
    (db : List LocalJobRow) (now : Nat) (conflictId : Nat)
    (resolution : ConflictChoice) :
    List SyncConflict × QueueState × List LocalJobRow :=
  match conflicts.find? (fun c => c.id == conflictId) with
  | none => (conflicts, q, db)
  | some conflict =>
    match resolution with
    | .localChoice =>
      (conflicts.filter (fun c => c.id != conflictId),
        (addToQueue q now conflict.entityType conflict.entityId SyncAct.update
          conflict.localData none 10).1, db)
    | .serverChoice =>
      (conflicts.filter (fun c => c.id != conflictId), q,
        if conflict.entityType == SyncEntityType.job then
          saveJob db now conflict.serverData true
        else db)

/-- C6 at the failing input: "keep local" on a conflict whose local payload
carries version 2 (the very version the server just rejected, server now at
4) re-enqueues the payload at elevated priority 10 but with version still 2 —
no incremented expectation of the server version, contradicting the claim and
the source's own comment ("Re-queue the local change with incremented
version"). -/
theorem resolveConflict_keepLocal_no_increment :
    (resolveConflict
        [⟨1, SyncEntityType.job, "job-1", ⟨some 2, false, "local"⟩,
          ⟨"job-1", 4, "server"⟩, false, 0⟩]
        ⟨[], 7⟩ [] 9 1 ConflictChoice.localChoice).2.1.items =
      [⟨7, SyncEntityType.job, "job-1", SyncAct.update, ⟨some 2, false, "local"⟩,
        none, 0, none, 10, 9⟩] ∧
    ((resolveConflict
        [⟨1, SyncEntityType.job, "job-1", ⟨some 2, false, "local"⟩,
          ⟨"job-1", 4, "server"⟩, false, 0⟩]
        ⟨[], 7⟩ [] 9 1 ConflictChoice.localChoice).2.1.items.map
      (fun it => (it.payload.version, it.priority))) = [(some 2, 10)] := by
  exact ⟨rfl, rfl⟩

end Fieldpulse
